import Mathlib

/-!
The mirror resolution engine of docker-mirror.

A shallow embedding of `main.go`: the three image commands (`pull`, `pull-local`, `push`)
drive the docker command line through `Execute`.  The docker process is an external
collaborator, so it is represented by an outcome function `Docker` that answers each
invocation given the invocations made before it.  A run of a command is the list of
invocations it made, in order, together with the way the process ended.
-/

namespace DockerMirror

/-! ## Configuration -/

/-- Harbor section of the configuration file (`Config.Harbor`). -/
structure HarborConfig where
  Domain : String
  Username : String
  Password : String
  Project : String
  deriving Repr, DecidableEq

/-- Configuration structure `Config` of `main.go`. -/
structure Config where
  Harbor : HarborConfig
  DockerRegistries : List String
  deriving Repr, DecidableEq

/-! ## The docker command line -/

/-- One invocation `Execute("docker", ...)`: the sub-command and its arguments. -/
inductive Call where
  | pull (image : String)
  | tag (source target : String)
  | rmi (image : String)
  | login (domain username password : String)
  | push (image : String)
  deriving Repr, DecidableEq

/-- Result of `Execute`: the combined output text and the Go error (`none` is `nil`,
`some e` carries the text that `%v` prints for the error). -/
structure Outcome where
  output : String
  err : Option String
  deriving Repr, DecidableEq

/-- Behaviour of the docker process: the outcome of an invocation, given the invocations
that were made before it (oldest first). -/
abbrev Docker := List Call → Call → Outcome

/-- One completed invocation with its outcome. -/
structure Event where
  call : Call
  out : Outcome
  deriving Repr, DecidableEq

/-- Invocations of a trace, outcomes dropped. -/
def calls (t : List Event) : List Call := t.map Event.call

/-- Function `Execute` of `main.go`: runs the command, returns its outcome, and the trace
grows by the invocation. -/
def Execute (D : Docker) (t : List Event) (c : Call) : Outcome × List Event :=
  let out := D (calls t) c
  (out, t ++ [⟨c, out⟩])

/-- Function `TagImage` of `main.go`; it tags `image` as itself and ignores `targetImage`.
No command calls it. -/
def TagImage (D : Docker) (t : List Event) (image _targetImage : String) :
    Option String × List Event :=
  let r := Execute D t (.tag image image)
  (r.1.err, r.2)

/-- Function `CleanImage` of `main.go`: `docker rmi image`; the output text is dropped and
only the error is returned. -/
def CleanImage (D : Docker) (t : List Event) (image : String) : Option String × List Event :=
  let r := Execute D t (.rmi image)
  (r.1.err, r.2)

/-! ## Name resolution -/

/-- Splitting of a character list at every occurrence of `sep`; the result is never empty
and has one more element than there are separators. -/
def splitChars (sep : Char) : List Char → List (List Char)
  | [] => [[]]
  | c :: cs =>
    if c = sep then [] :: splitChars sep cs
    else
      match splitChars sep cs with
      | [] => [[c]]
      | seg :: rest => (c :: seg) :: rest

/-- Go's `strings.Split(s, "/")`. -/
def Split (s : String) : List String := (splitChars '/' s.data).map String.mk

/-- The value `part` of the `pull` and `push` commands after the `library` adjustment:
`part := strings.Split(image, "/")`, and a one-element `part` becomes
`["library", part[0]]`. -/
def imageParts (image : String) : List String :=
  let part := Split image
  if part.length = 1 then ["library", part.getD 0 ""] else part

/-- The value `targetImage` of the `pull` and `push` commands:
`fmt.Sprintf("%s/%s/%s", Domain, Project, part[len(part)-1])`. -/
def targetImage (config : Config) (image : String) : String :=
  let part := imageParts image
  config.Harbor.Domain ++ "/" ++ config.Harbor.Project ++ "/" ++ part.getD (part.length - 1) ""

/-- Registry-qualified name `fmt.Sprintf("%s/%s", registry, sourceImage)`. -/
def registryImage (registry sourceImage : String) : String :=
  registry ++ "/" ++ sourceImage

/-! ## Runs -/

/-- Pulls of the registry-qualified names of `l`, in order. -/
def mirrorPulls (l : List String) (sourceImage : String) : List Call :=
  l.map (fun registry => Call.pull (registryImage registry sourceImage))

/-- A docker in which only the pull of home.example.com/public/redis fails. -/
def dockerHomeMissing : Docker := fun _ c =>
  if c = .pull "home.example.com/public/redis" then
    ⟨"Error response from daemon: not found", some "exit status 1"⟩
  else ⟨"", none⟩

/-- A configuration that lists the home domain among the mirror sources. -/
def homeAsMirrorConfig : Config :=
  ⟨⟨"home.example.com", "admin", "secret", "public"⟩, ["home.example.com"]⟩

/-- A configuration with home registry reg.example.com, project public and no mirror. -/
def noMirrorConfig : Config := ⟨⟨"reg.example.com", "admin", "secret", "public"⟩, []⟩

/-- A docker for the two-mirror scenario: the pulls of home.example.com/public/redis and of
m1.example.com/redis fail, every other invocation succeeds. -/
def dockerSecondMirror : Docker := fun _ c =>
  if c = .pull "home.example.com/public/redis" ∨ c = .pull "m1.example.com/redis" then
    ⟨"Error response from daemon: not found", some "exit status 1"⟩
  else ⟨"", none⟩

/-- Configuration of the two-mirror scenario. -/
def twoMirrorConfig : Config :=
  ⟨⟨"home.example.com", "admin", "secret", "public"⟩, ["m1.example.com", "m2.example.com"]⟩

/-- Message of the `log.Fatalf` that ends `pull` when no source gave the image. -/
def pullExhausted : String := "从所有配置的镜像源拉取镜像均失败"

/-- Message of the `log.Fatalf` that ends `pull-local` when no source gave the image. -/
def pullLocalExhausted : String := "从所有配置的 DockerRegistry 拉取镜像均失败"

/-- The way a command ends: it prints its success line, or `log.Fatalf` stops the process
with a message. -/
inductive Exit where
  | success
  | fatal (msg : String)
  deriving Repr, DecidableEq

/-- A run of a command: the docker invocations it made and the way it ended. -/
structure Run where
  trace : List Event
  exit : Exit
  deriving Repr, DecidableEq

/-- The four steps shared, with identical text, by the re-push block of `pull` and by
`push`: `docker tag image targetImage`, `docker login`, `docker push targetImage`,
`CleanImage(targetImage)`; each failure is a `log.Fatalf`. -/
def pushToHarbor (config : Config) (D : Docker) (image target : String) (t : List Event) : Run :=
  let r1 := Execute D t (.tag image target)
  match r1.1.err with
  | some err => ⟨r1.2, .fatal ("标记镜像出错: " ++ err ++ "\n" ++ r1.1.output)⟩
  | none =>
    let r2 := Execute D r1.2
      (.login config.Harbor.Domain config.Harbor.Username config.Harbor.Password)
    match r2.1.err with
    | some err => ⟨r2.2, .fatal ("登录 Harbor 出错: " ++ err ++ "\n" ++ r2.1.output)⟩
    | none =>
      let r3 := Execute D r2.2 (.push target)
      match r3.1.err with
      | some err => ⟨r3.2, .fatal ("推送镜像出错: " ++ err ++ "\n" ++ r3.1.output)⟩
      | none =>
        let r4 := CleanImage D r3.2 target
        match r4.1 with
        | some err => ⟨r4.2, .fatal ("清理本地镜像出错: " ++ err)⟩
        | none => ⟨r4.2, .success⟩

/-- Command `push`. -/
def pushCmd (config : Config) (D : Docker) (image : String) : Run :=
  pushToHarbor config D image (targetImage config image) []

/-- Variables of the `pull` command that the source search assigns. -/
structure PullState where
  trace : List Event
  pullErr : Option String
  sourceRegistry : String
  sourceImage : String
  deriving Repr, DecidableEq

/-- The `for _, registry := range config.DockerRegistries` loop of `pull`; `.error` is a
`log.Fatalf` inside the body, `.ok` the state when the loop is left (by `break` or at the
end of the list). -/
def pullLoop (D : Docker) (image : String) : List String → PullState → Except Run PullState
  | [], s => .ok s
  | registry :: rest, s =>
    let qualified := registryImage registry s.sourceImage
    let r1 := Execute D s.trace (.pull qualified)
    match r1.1.err with
    | some err => pullLoop D image rest { s with trace := r1.2, pullErr := some err }
    | none =>
      let r2 := Execute D r1.2 (.tag qualified image)
      match r2.1.err with
      | some err => .error ⟨r2.2, .fatal ("标记镜像出错: " ++ err ++ "\n" ++ r2.1.output)⟩
      | none =>
        let r3 := CleanImage D r2.2 qualified
        match r3.1 with
        | some err => .error ⟨r3.2, .fatal ("清理本地镜像出错: " ++ err)⟩
        | none =>
          .ok { trace := r3.2, pullErr := none, sourceRegistry := registry,
                sourceImage := qualified }

/-- The part of `pull` after the source search: the exhaustion check and the conditional
re-push to Harbor. -/
def pullFinish (config : Config) (D : Docker) (image : String) (s : PullState) : Run :=
  match s.pullErr with
  | some _ => ⟨s.trace, .fatal pullExhausted⟩
  | none =>
    if s.sourceRegistry ≠ config.Harbor.Domain then
      pushToHarbor config D image (targetImage config image) s.trace
    else ⟨s.trace, .success⟩

/-- Command `pull` (sync mode). -/
def pullCmd (config : Config) (D : Docker) (image : String) : Run :=
  let sourceImage := image
  let harborImage := targetImage config image
  let r1 := Execute D [] (.pull harborImage)
  match r1.1.err with
  | none =>
    let r2 := Execute D r1.2 (.tag harborImage image)
    match r2.1.err with
    | some err => ⟨r2.2, .fatal ("标记镜像出错: " ++ err ++ "\n" ++ r2.1.output)⟩
    | none =>
      let r3 := CleanImage D r2.2 harborImage
      match r3.1 with
      | some err => ⟨r3.2, .fatal ("清理本地镜像出错: " ++ err)⟩
      | none =>
        pullFinish config D image
          { trace := r3.2, pullErr := none, sourceRegistry := config.Harbor.Domain,
            sourceImage := harborImage }
  | some _ =>
    if config.DockerRegistries.length = 0 then
      let r2 := Execute D r1.2 (.pull sourceImage)
      match r2.1.err with
      | some err =>
        pullFinish config D image
          { trace := r2.2, pullErr := some err, sourceRegistry := "", sourceImage := sourceImage }
      | none =>
        pullFinish config D image
          { trace := r2.2, pullErr := none, sourceRegistry := "", sourceImage := sourceImage }
    else
      match pullLoop D image config.DockerRegistries
          { trace := r1.2, pullErr := none, sourceRegistry := "", sourceImage := sourceImage } with
      | .error run => run
      | .ok s => pullFinish config D image s

/-- The `for _, registry := range config.DockerRegistries` loop of `pull-local`: the tag
and the cleanup sit in the branch of the failed pull, and a successful pull leaves the
loop at once.  The state is the trace and `pullErr`. -/
def pullLocalLoop (D : Docker) (image sourceImage : String) :
    List String → List Event → Option String → Except Run (List Event × Option String)
  | [], t, pullErr => .ok (t, pullErr)
  | registry :: rest, t, _ =>
    let qualified := registryImage registry sourceImage
    let r1 := Execute D t (.pull qualified)
    match r1.1.err with
    | some err =>
      let r2 := Execute D r1.2 (.tag qualified image)
      match r2.1.err with
      | some err2 => .error ⟨r2.2, .fatal ("标记镜像出错: " ++ err2 ++ "\n" ++ r2.1.output)⟩
      | none =>
        let r3 := CleanImage D r2.2 qualified
        match r3.1 with
        | some err3 => .error ⟨r3.2, .fatal ("清理本地镜像出错: " ++ err3)⟩
        | none => pullLocalLoop D image sourceImage rest r3.2 (some err)
    | none => .ok (r1.2, none)

/-- The end of `pull-local`: the exhaustion check. -/
def pullLocalFinish (t : List Event) (pullErr : Option String) : Run :=
  match pullErr with
  | some _ => ⟨t, .fatal pullLocalExhausted⟩
  | none => ⟨t, .success⟩

/-- Command `pull-local` (pull-only mode). -/
def pullLocalCmd (config : Config) (D : Docker) (image : String) : Run :=
  let sourceImage := image
  if config.DockerRegistries.length = 0 then
    let r1 := Execute D [] (.pull sourceImage)
    match r1.1.err with
    | some err => pullLocalFinish r1.2 (some err)
    | none =>
      let r2 := Execute D r1.2 (.tag sourceImage image)
      match r2.1.err with
      | some err => ⟨r2.2, .fatal ("标记镜像出错: " ++ err ++ "\n" ++ r2.1.output)⟩
      | none =>
        let r3 := CleanImage D r2.2 sourceImage
        match r3.1 with
        | some err => ⟨r3.2, .fatal ("清理本地镜像出错: " ++ err)⟩
        | none => pullLocalFinish r3.2 none
  else
    match pullLocalLoop D image sourceImage config.DockerRegistries [] none with
    | .error run => run
    | .ok (t, pullErr) => pullLocalFinish t pullErr

/-! ## Local image store -/

/-- Tag names present in the local image store. -/
abbrev Store := List String

/-- Effect of one completed invocation on the set of local tag names: a successful pull
adds the name, a successful `tag a b` adds `b` when `a` is present, a successful `rmi`
deletes the name; a failed invocation, `login` and `push` change nothing. -/
def applyEvent (st : Store) (e : Event) : Store :=
  match e.out.err with
  | some _ => st
  | none =>
    match e.call with
    | .pull n => if n ∈ st then st else n :: st
    | .tag a b => if a ∈ st then (if b ∈ st then st else b :: st) else st
    | .rmi n => st.filter (fun x => x ≠ n)
    | .login _ _ _ => st
    | .push _ => st

/-- Local store after a trace, from the empty store. -/
def storeAfter (t : List Event) : Store := t.foldl applyEvent []

/-- The trace holds a successful pull of the home target name or a successful push of
it. -/
def inHome (config : Config) (image : String) (t : List Event) : Prop :=
  ∃ e ∈ t, e.out.err = none ∧
    (e.call = .pull (targetImage config image) ∨ e.call = .push (targetImage config image))

instance (config : Config) (image : String) (t : List Event) :
    Decidable (inHome config image t) := by
  unfold inHome; infer_instance

/-- Steps whose failure is a `log.Fatalf`: every invocation other than a pull. -/
def Call.isFatalStep : Call → Bool
  | .pull _ => false
  | _ => true

/-- Text of the `log.Fatalf` that follows a failed tag, login, push or cleanup; the texts
are the same in the three commands.  The cleanup text has the error only, since
`CleanImage` returns no output. -/
def diagnostic (e : Event) (err : String) : String :=
  match e.call with
  | .tag _ _ => "标记镜像出错: " ++ err ++ "\n" ++ e.out.output
  | .login _ _ _ => "登录 Harbor 出错: " ++ err ++ "\n" ++ e.out.output
  | .push _ => "推送镜像出错: " ++ err ++ "\n" ++ e.out.output
  | .rmi _ => "清理本地镜像出错: " ++ err
  | .pull _ => ""

/-- A run stops at the first failed tag, login, push or rmi: such an invocation is the last
of the trace, the exit is the `log.Fatalf` of that step, and for tag, login and push the
message holds the output text of the failed command, while for rmi it is the cleanup
prefix followed by the error value. -/
def fatalStepStops (run : Run) : Prop :=
  ∀ pre e post err, run.trace = pre ++ e :: post → e.call.isFatalStep = true →
    e.out.err = some err →
    post = [] ∧ run.exit = .fatal (diagnostic e err) ∧
    ((∀ n, e.call ≠ .rmi n) → e.out.output.data <:+: (diagnostic e err).data) ∧
    (∀ n, e.call = .rmi n → diagnostic e err = "清理本地镜像出错: " ++ err)

/-- No tag, login, push or rmi of the trace failed. -/
def Clean (t : List Event) : Prop :=
  ∀ e ∈ t, e.call.isFatalStep = true → e.out.err = none

/-- Either no fatal step failed, or the last invocation is a failed fatal step and the exit
is its `log.Fatalf`. -/
def Settled (run : Run) : Prop :=
  Clean run.trace ∨
  ∃ t e err, run.trace = t ++ [e] ∧ Clean t ∧ e.call.isFatalStep = true ∧
    e.out.err = some err ∧ run.exit = .fatal (diagnostic e err)

/-- A docker in which the pull of reg.example.com/public/redis fails, every rmi fails with
an output text, and every other invocation succeeds. -/
def dockerRmiFails : Docker := fun _ c =>
  match c with
  | .rmi _ => ⟨"Error response from daemon: conflict", some "exit status 1"⟩
  | .pull n =>
    if n = "reg.example.com/public/redis" then ⟨"not found", some "exit status 1"⟩
    else ⟨"", none⟩
  | _ => ⟨"", none⟩

/-- A docker that serves redis on m2.example.com only: every other pull fails, and so does
the tag of m1.example.com/redis, an image that was never pulled; every other invocation
succeeds. -/
def dockerTagAbsentFails : Docker := fun _ c =>
  match c with
  | .pull n =>
    if n = "m2.example.com/redis" then ⟨"", none⟩
    else ⟨"Error response from daemon: not found", some "exit status 1"⟩
  | .tag a _ =>
    if a = "m1.example.com/redis" then
      ⟨"Error response from daemon: No such image", some "exit status 1"⟩
    else ⟨"", none⟩
  | _ => ⟨"", none⟩

/-- A docker that always succeeds, with empty output. -/
def dockerOk : Docker := fun _ _ => ⟨"", none⟩

/-- A docker that always fails, with exit status 1. -/
def dockerFail : Docker := fun _ _ => ⟨"Error response from daemon", some "exit status 1"⟩

/-! ## Name resolution: lemmas -/

theorem splitChars_ne_nil (sep : Char) (l : List Char) : splitChars sep l ≠ [] := by
  induction l with
  | nil => simp [splitChars]
  | cons c cs ih =>
    unfold splitChars
    split
    · simp
    · split <;> simp

theorem splitChars_sep_free (sep : Char) (l : List Char) :
    ∀ seg ∈ splitChars sep l, sep ∉ seg := by
  induction l with
  | nil => simp [splitChars]
  | cons c cs ih =>
    unfold splitChars
    split
    · intro seg hseg
      rcases List.mem_cons.1 hseg with h | h
      · simp [h]
      · exact ih seg h
    · rename_i hc
      split
      · intro seg hseg
        simp at hseg
        subst hseg
        simpa using fun h => hc h.symm
      · rename_i seg0 rest heq
        intro seg hseg
        rw [heq] at ih
        rcases List.mem_cons.1 hseg with h | h
        · subst h
          have h0 := ih seg0 (by simp)
          simp only [List.mem_cons, not_or]
          exact ⟨fun h => hc h.symm, h0⟩
        · exact ih seg (by simp [h])

theorem Split_ne_nil (s : String) : Split s ≠ [] := by
  simp [Split, splitChars_ne_nil]

theorem Split_sep_free (s : String) : ∀ seg ∈ Split s, '/' ∉ seg.data := by
  intro seg hseg
  unfold Split at hseg
  obtain ⟨l, hl, heq⟩ := List.mem_map.1 hseg
  rw [← heq]
  exact splitChars_sep_free _ _ l hl

theorem getD_pred_length_eq_getLast (l : List String) (h : l ≠ []) :
    l.getD (l.length - 1) "" = l.getLast h := by
  rw [List.getLast_eq_getElem, List.getD_eq_getElem?_getD, List.getElem?_eq_getElem]
  · rfl

theorem imageParts_last (image : String) :
    (imageParts image).getD ((imageParts image).length - 1) ""
      = (Split image).getLast (Split_ne_nil image) := by
  unfold imageParts
  simp only
  split
  · rename_i h1
    obtain ⟨a, ha⟩ := List.length_eq_one.1 h1
    simp [ha]
  · exact getD_pred_length_eq_getLast _ _

/-! ## The source loop of `pull` -/

theorem pullLoop_failed_sources (D : Docker) (image : String) (rest : List String) :
    ∀ (A : List String) (s : PullState),
      (∀ i (hi : i < A.length),
        (D (calls s.trace ++ mirrorPulls (A.take i) s.sourceImage)
          (.pull (registryImage (A.get ⟨i, hi⟩) s.sourceImage))).err ≠ none) →
      ∃ t pe, calls t = calls s.trace ++ mirrorPulls A s.sourceImage ∧
        pullLoop D image (A ++ rest) s
          = pullLoop D image rest { s with trace := t, pullErr := pe } := by
  intro A
  induction A with
  | nil => intro s _; exact ⟨s.trace, s.pullErr, by simp [mirrorPulls], rfl⟩
  | cons a A ih =>
    intro s hfail
    have h0 := hfail 0 (by simp)
    simp only [List.take_zero, mirrorPulls, List.map_nil, List.append_nil, List.get_eq_getElem,
      List.getElem_cons_zero] at h0
    obtain ⟨e, he⟩ := Option.ne_none_iff_exists'.1 h0
    obtain ⟨t, pe, ht, hloop⟩ := ih
      { s with trace := (Execute D s.trace (.pull (registryImage a s.sourceImage))).2,
               pullErr := some e } (by
        intro i hi
        have := hfail (i + 1) (by simpa using hi)
        simpa [Execute, calls, mirrorPulls] using this)
    refine ⟨t, pe, ?_, ?_⟩
    · rw [ht]; simp [Execute, calls, mirrorPulls]
    · rw [List.cons_append, pullLoop]
      simp only [Execute, he]
      simpa [Execute] using hloop

theorem steps_ok (D : Docker) (hsteps : ∀ h c, c.isFatalStep = true → (D h c).err = none) :
    (∀ h a b, (D h (.tag a b)).err = none) ∧ (∀ h a, (D h (.rmi a)).err = none) ∧
    (∀ h a b c, (D h (.login a b c)).err = none) ∧ (∀ h a, (D h (.push a)).err = none) :=
  ⟨fun h _ _ => hsteps h _ rfl, fun h _ => hsteps h _ rfl, fun h _ _ _ => hsteps h _ rfl,
   fun h _ => hsteps h _ rfl⟩

theorem pullLoop_first_success (D : Docker) (image registry : String) (rest : List String)
    (s : PullState)
    (hpull : (D (calls s.trace) (.pull (registryImage registry s.sourceImage))).err = none)
    (hsteps : ∀ h c, c.isFatalStep = true → (D h c).err = none) :
    ∃ t, calls t = calls s.trace ++
          [.pull (registryImage registry s.sourceImage),
           .tag (registryImage registry s.sourceImage) image,
           .rmi (registryImage registry s.sourceImage)] ∧
      pullLoop D image (registry :: rest) s
        = .ok { trace := t, pullErr := none, sourceRegistry := registry,
                sourceImage := registryImage registry s.sourceImage } := by
  obtain ⟨htag, hrmi, -, -⟩ := steps_ok D hsteps
  rw [pullLoop]
  simp only [Execute, CleanImage, hpull, htag, hrmi]
  exact ⟨_, by simp [calls], rfl⟩

theorem pushToHarbor_all_ok (config : Config) (D : Docker) (image target : String)
    (t : List Event) (hsteps : ∀ h c, c.isFatalStep = true → (D h c).err = none) :
    calls (pushToHarbor config D image target t).trace
      = calls t ++ [.tag image target,
          .login config.Harbor.Domain config.Harbor.Username config.Harbor.Password,
          .push target, .rmi target] ∧
    (pushToHarbor config D image target t).exit = .success := by
  obtain ⟨htag, hrmi, hlogin, hpush⟩ := steps_ok D hsteps
  simp [pushToHarbor, Execute, CleanImage, htag, hrmi, hlogin, hpush, calls]

theorem pushToHarbor_success_pushed (config : Config) (D : Docker) (image target : String)
    (t : List Event) (h : (pushToHarbor config D image target t).exit = .success) :
    ∃ e ∈ (pushToHarbor config D image target t).trace,
      e.out.err = none ∧ e.call = .push target := by
  revert h
  simp only [pushToHarbor, Execute, CleanImage]
  split
  · simp
  · split
    · simp
    · split
      · simp
      · rename_i hpush
        split
        · simp
        · intro _
          exact ⟨⟨.push target, _⟩, by simp, hpush, rfl⟩

theorem pullLoop_ok_cases (D : Docker) (image : String) :
    ∀ (L : List String) (s s1 : PullState), pullLoop D image L s = .ok s1 →
      (s1.pullErr = none ∧ s1.sourceRegistry ∈ L) ∨ (L = [] ∧ s1 = s) ∨
        (L ≠ [] ∧ s1.pullErr ≠ none) := by
  intro L
  induction L with
  | nil =>
    intro s s1 h
    simp only [pullLoop, Except.ok.injEq] at h
    exact Or.inr (Or.inl ⟨rfl, h.symm⟩)
  | cons a L ih =>
    intro s s1 h
    rw [pullLoop] at h
    simp only at h
    split at h
    · rcases ih _ _ h with h1 | h1 | h1
      · exact Or.inl ⟨h1.1, List.mem_cons_of_mem _ h1.2⟩
      · refine Or.inr (Or.inr ⟨by simp, ?_⟩)
        rw [h1.2]; simp
      · exact Or.inr (Or.inr ⟨by simp, h1.2⟩)
    · split at h
      · simp at h
      · split at h
        · simp at h
        · simp only [Except.ok.injEq] at h
          subst h
          exact Or.inl ⟨rfl, by simp⟩

theorem pullLoop_error_fatal (D : Docker) (image : String) :
    ∀ (L : List String) (s : PullState) (run : Run), pullLoop D image L s = .error run →
      run.exit ≠ .success := by
  intro L
  induction L with
  | nil => intro s run h; simp [pullLoop] at h
  | cons a L ih =>
    intro s run h
    rw [pullLoop] at h
    simp only at h
    split at h
    · exact ih _ _ h
    · split at h
      · simp only [Except.error.injEq] at h
        subst h; simp
      · split at h
        · simp only [Except.error.injEq] at h
          subst h; simp
        · simp at h

/-! ## The local store along a run -/

theorem storeAfter_nil : storeAfter [] = [] := rfl

theorem storeAfter_snoc (t : List Event) (e : Event) :
    storeAfter (t ++ [e]) = applyEvent (storeAfter t) e := by
  simp [storeAfter, List.foldl_append]

theorem registryImage_ne (registry x : String) : registryImage registry x ≠ x := by
  intro h
  have := congrArg String.length h
  simp only [registryImage, String.length_append] at this
  have h1 : "/".length = 1 := by decide
  omega

theorem pushToHarbor_success_store (config : Config) (D : Docker) (image target : String)
    (t : List Event) (hne : image ≠ target) (hst : storeAfter t = [image])
    (h : (pushToHarbor config D image target t).exit = .success) :
    storeAfter (pushToHarbor config D image target t).trace = [image] := by
  revert h
  simp only [pushToHarbor, Execute, CleanImage]
  split
  · simp
  · rename_i h1
    split
    · simp
    · rename_i h2
      split
      · simp
      · rename_i h3
        split
        · simp
        · rename_i h4
          intro _
          simp only [storeAfter_snoc, applyEvent, h1, h2, h3, h4, hst]
          simp [hne, Ne.symm hne]

theorem pullLoop_ok_store (D : Docker) (image : String) :
    ∀ (L : List String) (s s1 : PullState), pullLoop D image L s = .ok s1 →
      storeAfter s.trace = [] → s.sourceImage = image →
      (s1.pullErr = none ∧ storeAfter s1.trace = [image]) ∨ (L = [] ∧ s1 = s) ∨
        (L ≠ [] ∧ s1.pullErr ≠ none) := by
  intro L
  induction L with
  | nil =>
    intro s s1 h _ _
    simp only [pullLoop, Except.ok.injEq] at h
    exact Or.inr (Or.inl ⟨rfl, h.symm⟩)
  | cons a L ih =>
    intro s s1 h hst himg
    rw [pullLoop] at h
    simp only [Execute, CleanImage] at h
    split at h
    · rename_i e he
      rcases ih _ _ h (by simp only [storeAfter_snoc, applyEvent, he, hst]) himg with h1 | h1 | h1
      · exact Or.inl h1
      · refine Or.inr (Or.inr ⟨by simp, ?_⟩)
        rw [h1.2]; simp
      · exact Or.inr (Or.inr ⟨by simp, h1.2⟩)
    · rename_i h1
      split at h
      · simp at h
      · rename_i h2
        split at h
        · simp at h
        · rename_i h3
          simp only [Except.ok.injEq] at h
          subst h
          refine Or.inl ⟨rfl, ?_⟩
          have hne := registryImage_ne a image
          rw [himg] at h1 h2 h3
          simp only [storeAfter_snoc, applyEvent, h1, h2, h3, hst, himg]
          simp [hne, Ne.symm hne]

/-! ## Fatal steps -/

theorem clean_nil : Clean [] := by simp [Clean]

theorem clean_snoc_ok (t : List Event) (e : Event) (h : Clean t) (he : e.out.err = none) :
    Clean (t ++ [e]) := by
  intro x hx hf
  rcases List.mem_append.1 hx with hx | hx
  · exact h x hx hf
  · simp only [List.mem_singleton] at hx
    rw [hx]; exact he

theorem clean_snoc_pull (t : List Event) (n : String) (o : Outcome) (h : Clean t) :
    Clean (t ++ [⟨.pull n, o⟩]) := by
  intro x hx hf
  rcases List.mem_append.1 hx with hx | hx
  · exact h x hx hf
  · simp only [List.mem_singleton] at hx
    rw [hx] at hf; simp [Call.isFatalStep] at hf

theorem settled_of_clean (run : Run) (h : Clean run.trace) : Settled run := Or.inl h

theorem settled_fail (t : List Event) (e : Event) (err msg : String) (h : Clean t)
    (hf : e.call.isFatalStep = true) (he : e.out.err = some err)
    (hm : msg = diagnostic e err) : Settled ⟨t ++ [e], .fatal msg⟩ :=
  Or.inr ⟨t, e, err, rfl, h, hf, he, by rw [hm]⟩

theorem diagnostic_has_output (e : Event) (err : String) (h : ∀ n, e.call ≠ .rmi n)
    (hf : e.call.isFatalStep = true) : e.out.output.data <:+: (diagnostic e err).data := by
  unfold diagnostic
  split
  · simp only [String.data_append]; exact (List.suffix_append _ _).isInfix
  · simp only [String.data_append]; exact (List.suffix_append _ _).isInfix
  · simp only [String.data_append]; exact (List.suffix_append _ _).isInfix
  · rename_i n hc; exact absurd hc (h n)
  · rename_i n hc; rw [hc] at hf; simp [Call.isFatalStep] at hf

theorem fatalStepStops_of_settled (run : Run) (h : Settled run) : fatalStepStops run := by
  intro pre e post err htr hf he
  rcases h with h | ⟨t, e1, err1, ht, hclean, hf1, he1, hexit⟩
  · have := h e (by rw [htr]; simp) hf
    rw [this] at he; simp at he
  · rw [ht] at htr
    rcases List.eq_nil_or_concat post with hp | ⟨post1, x, hp⟩
    · subst hp
      have heq := List.append_inj_right' htr rfl
      simp only [List.cons.injEq, and_true] at heq
      subst heq
      rw [he1] at he
      simp only [Option.some.injEq] at he
      subst he
      refine ⟨rfl, hexit, fun hn => diagnostic_has_output _ _ hn hf, ?_⟩
      intro n hn
      simp [diagnostic, hn]
    · subst hp
      have h2 : t ++ [e1] = (pre ++ e :: post1) ++ [x] := by
        rw [htr]; simp
      have heq := List.append_inj_left' h2 rfl
      have := hclean e (by rw [heq]; simp) hf
      rw [this] at he; simp at he

theorem pushToHarbor_settled (config : Config) (D : Docker) (image target : String)
    (t : List Event) (h : Clean t) : Settled (pushToHarbor config D image target t) := by
  simp only [pushToHarbor, Execute, CleanImage]
  split
  · rename_i err h1
    exact settled_fail _ _ err _ h rfl h1 rfl
  · rename_i h1
    have c1 := clean_snoc_ok t ⟨.tag image target, _⟩ h h1
    split
    · rename_i err h2
      exact settled_fail _ _ err _ c1 rfl h2 rfl
    · rename_i h2
      have c2 := clean_snoc_ok _
        ⟨.login config.Harbor.Domain config.Harbor.Username config.Harbor.Password, _⟩ c1 h2
      split
      · rename_i err h3
        exact settled_fail _ _ err _ c2 rfl h3 rfl
      · rename_i h3
        have c3 := clean_snoc_ok _ ⟨.push target, _⟩ c2 h3
        split
        · rename_i err h4
          exact settled_fail _ _ err _ c3 rfl h4 rfl
        · rename_i h4
          exact settled_of_clean _ (clean_snoc_ok _ ⟨.rmi target, _⟩ c3 h4)

theorem pullFinish_settled (config : Config) (D : Docker) (image : String) (s : PullState)
    (h : Clean s.trace) : Settled (pullFinish config D image s) := by
  simp only [pullFinish]
  split
  · exact settled_of_clean _ h
  · split
    · exact pushToHarbor_settled config D image _ _ h
    · exact settled_of_clean _ h

theorem pullLoop_settled (D : Docker) (image : String) :
    ∀ (L : List String) (s : PullState), Clean s.trace →
      (∀ run, pullLoop D image L s = .error run → Settled run) ∧
      (∀ s1, pullLoop D image L s = .ok s1 → Clean s1.trace) := by
  intro L
  induction L with
  | nil =>
    intro s h
    refine ⟨fun run hr => by simp [pullLoop] at hr, fun s1 hs => ?_⟩
    simp only [pullLoop, Except.ok.injEq] at hs
    rw [← hs]; exact h
  | cons a L ih =>
    intro s h
    rw [pullLoop]
    simp only [Execute, CleanImage]
    have c1 := clean_snoc_pull s.trace (registryImage a s.sourceImage)
      (D (calls s.trace) (.pull (registryImage a s.sourceImage))) h
    split
    · exact ih _ c1
    · split
      · rename_i err h2
        refine ⟨fun run hr => ?_, fun s1 hs => by simp at hs⟩
        simp only [Except.error.injEq] at hr
        rw [← hr]
        exact settled_fail _ _ err _ c1 rfl h2 rfl
      · rename_i h2
        have c2 := clean_snoc_ok _ ⟨.tag (registryImage a s.sourceImage) image, _⟩ c1 h2
        split
        · rename_i err h3
          refine ⟨fun run hr => ?_, fun s1 hs => by simp at hs⟩
          simp only [Except.error.injEq] at hr
          rw [← hr]
          exact settled_fail _ _ err _ c2 rfl h3 rfl
        · rename_i h3
          refine ⟨fun run hr => by simp at hr, fun s1 hs => ?_⟩
          simp only [Except.ok.injEq] at hs
          rw [← hs]
          exact clean_snoc_ok _ ⟨.rmi (registryImage a s.sourceImage), _⟩ c2 h3

theorem pullCmd_settled (config : Config) (D : Docker) (image : String) :
    Settled (pullCmd config D image) := by
  simp only [pullCmd, Execute, CleanImage]
  have c1 := clean_snoc_pull [] (targetImage config image)
    (D (calls []) (.pull (targetImage config image))) clean_nil
  split
  · split
    · rename_i err h2
      exact settled_fail _ _ err _ c1 rfl h2 rfl
    · rename_i h2
      have c2 := clean_snoc_ok _ ⟨.tag (targetImage config image) image, _⟩ c1 h2
      split
      · rename_i err h3
        exact settled_fail _ _ err _ c2 rfl h3 rfl
      · rename_i h3
        exact pullFinish_settled config D image _
          (clean_snoc_ok _ ⟨.rmi (targetImage config image), _⟩ c2 h3)
  · split
    · split
      · exact pullFinish_settled config D image _ (clean_snoc_pull _ _ _ c1)
      · exact pullFinish_settled config D image _ (clean_snoc_pull _ _ _ c1)
    · split
      · rename_i run hrun
        exact (pullLoop_settled D image _ _ c1).1 run hrun
      · rename_i s1 hloop
        exact pullFinish_settled config D image _ ((pullLoop_settled D image _ _ c1).2 s1 hloop)

theorem pullLocalLoop_settled (D : Docker) (image sourceImage : String) :
    ∀ (L : List String) (t : List Event) (pe : Option String), Clean t →
      (∀ run, pullLocalLoop D image sourceImage L t pe = .error run → Settled run) ∧
      (∀ t1 pe1, pullLocalLoop D image sourceImage L t pe = .ok (t1, pe1) → Clean t1) := by
  intro L
  induction L with
  | nil =>
    intro t pe h
    refine ⟨fun run hr => by simp [pullLocalLoop] at hr, fun t1 pe1 hs => ?_⟩
    simp only [pullLocalLoop, Except.ok.injEq, Prod.mk.injEq] at hs
    rw [← hs.1]; exact h
  | cons a L ih =>
    intro t pe h
    rw [pullLocalLoop]
    simp only [Execute, CleanImage]
    have c1 := clean_snoc_pull t (registryImage a sourceImage)
      (D (calls t) (.pull (registryImage a sourceImage))) h
    split
    · split
      · rename_i err h2
        refine ⟨fun run hr => ?_, fun t1 pe1 hs => by simp at hs⟩
        simp only [Except.error.injEq] at hr
        rw [← hr]
        exact settled_fail _ _ err _ c1 rfl h2 rfl
      · rename_i h2
        have c2 := clean_snoc_ok _ ⟨.tag (registryImage a sourceImage) image, _⟩ c1 h2
        split
        · rename_i err h3
          refine ⟨fun run hr => ?_, fun t1 pe1 hs => by simp at hs⟩
          simp only [Except.error.injEq] at hr
          rw [← hr]
          exact settled_fail _ _ err _ c2 rfl h3 rfl
        · rename_i h3
          exact ih _ _ (clean_snoc_ok _ ⟨.rmi (registryImage a sourceImage), _⟩ c2 h3)
    · refine ⟨fun run hr => by simp at hr, fun t1 pe1 hs => ?_⟩
      simp only [Except.ok.injEq, Prod.mk.injEq] at hs
      rw [← hs.1]; exact c1

theorem pullLocalFinish_settled (t : List Event) (pe : Option String) (h : Clean t) :
    Settled (pullLocalFinish t pe) := by
  unfold pullLocalFinish
  split <;> exact settled_of_clean _ h

theorem pullLocalCmd_settled (config : Config) (D : Docker) (image : String) :
    Settled (pullLocalCmd config D image) := by
  simp only [pullLocalCmd, Execute, CleanImage]
  split
  · have c1 := clean_snoc_pull [] image (D (calls []) (.pull image)) clean_nil
    split
    · exact pullLocalFinish_settled _ _ c1
    · split
      · rename_i err h2
        exact settled_fail _ _ err _ c1 rfl h2 rfl
      · rename_i h2
        have c2 := clean_snoc_ok _ ⟨.tag image image, _⟩ c1 h2
        split
        · rename_i err h3
          exact settled_fail _ _ err _ c2 rfl h3 rfl
        · rename_i h3
          exact pullLocalFinish_settled _ _ (clean_snoc_ok _ ⟨.rmi image, _⟩ c2 h3)
  · split
    · rename_i run hrun
      exact (pullLocalLoop_settled D image image _ _ _ clean_nil).1 run hrun
    · rename_i t1 pe1 hloop
      exact pullLocalFinish_settled _ _
        ((pullLocalLoop_settled D image image _ _ _ clean_nil).2 t1 pe1 hloop)

theorem pullLocalFinish_trace (t : List Event) (pe : Option String) :
    (pullLocalFinish t pe).trace = t := by
  unfold pullLocalFinish
  split <;> rfl

theorem pullLocalLoop_ok_store (D : Docker) (image sourceImage : String) :
    ∀ (L : List String) (t t1 : List Event) (pe pe1 : Option String),
      pullLocalLoop D image sourceImage L t pe = .ok (t1, pe1) → storeAfter t = [] →
      (storeAfter t1 = [] ∧ ((L = [] ∧ pe1 = pe) ∨ pe1 ≠ none)) ∨
      (∃ a ∈ L, storeAfter t1 = [registryImage a sourceImage] ∧ pe1 = none) := by
  intro L
  induction L with
  | nil =>
    intro t t1 pe pe1 h hst
    simp only [pullLocalLoop, Except.ok.injEq, Prod.mk.injEq] at h
    rw [← h.1, ← h.2]
    exact Or.inl ⟨hst, Or.inl ⟨rfl, rfl⟩⟩
  | cons a L ih =>
    intro t t1 pe pe1 h hst
    rw [pullLocalLoop] at h
    simp only [Execute, CleanImage] at h
    split at h
    · rename_i err h1
      split at h
      · simp at h
      · rename_i h2
        split at h
        · simp at h
        · rename_i h3
          rcases ih _ _ _ _ h (by
            simp only [storeAfter_snoc, applyEvent, h1, h2, h3, hst]
            simp) with ⟨hs, hp | hp⟩ | ⟨b, hb, hs, hp⟩
          · exact Or.inl ⟨hs, Or.inr (by rw [hp.2]; simp)⟩
          · exact Or.inl ⟨hs, Or.inr hp⟩
          · exact Or.inr ⟨b, List.mem_cons_of_mem _ hb, hs, hp⟩
    · rename_i h1
      simp only [Except.ok.injEq, Prod.mk.injEq] at h
      rw [← h.1, ← h.2]
      refine Or.inr ⟨a, by simp, ?_, rfl⟩
      simp only [storeAfter_snoc, applyEvent, h1, hst]
      simp

/-- Every `pull-local` run that ends in success leaves the store without the tag of the
caller's reference. -/
theorem pullLocalCmd_success_store_lacks_image (config : Config) (D : Docker) (image : String)
    (h : (pullLocalCmd config D image).exit = .success) :
    image ∉ storeAfter (pullLocalCmd config D image).trace := by
  revert h
  simp only [pullLocalCmd, Execute, CleanImage]
  split
  · split
    · simp [pullLocalFinish]
    · rename_i h1
      split
      · simp
      · rename_i h2
        split
        · simp
        · rename_i h3
          intro _
          simp only [pullLocalFinish, storeAfter_snoc, applyEvent, h1, h2, h3, storeAfter_nil]
          simp
  · split
    · rename_i run hrun
      intro hex
      have hs := (pullLocalLoop_settled D image image _ _ _ clean_nil).1 run hrun
      rcases hs with hs | ⟨t, e, err, -, -, -, -, hexit⟩
      · exfalso
        revert hrun hex
        generalize config.DockerRegistries = L
        generalize ([] : List Event) = t0
        generalize (none : Option String) = pe0
        induction L generalizing t0 pe0 with
        | nil => intro hrun; simp [pullLocalLoop] at hrun
        | cons a L ih =>
          intro hrun hex
          rw [pullLocalLoop] at hrun
          simp only [Execute, CleanImage] at hrun
          split at hrun
          · split at hrun
            · simp only [Except.error.injEq] at hrun
              rw [← hrun] at hex; simp at hex
            · split at hrun
              · simp only [Except.error.injEq] at hrun
                rw [← hrun] at hex; simp at hex
              · exact ih _ _ hrun hex
          · simp at hrun
      · rw [hexit] at hex; simp at hex
    · rename_i t1 pe1 hloop
      rcases pullLocalLoop_ok_store D image image _ _ _ _ _ hloop storeAfter_nil with
        ⟨hs, _⟩ | ⟨a, _, hs, _⟩
      · intro _; rw [pullLocalFinish_trace, hs]; simp
      · intro _; rw [pullLocalFinish_trace, hs]
        simpa using Ne.symm (registryImage_ne a image)

/-! ## Claims -/

/-- C1: the target image name of `pull` and `push` is the home domain, the project and the
last element of the reference split on "/", joined by "/"; that element holds no "/", so
the namespace is gone, and the `library` element put in front of a slash-free reference is
not part of the name.  With domain reg.example.com and project public, both postgresql:11
and bitnami/postgresql:11 give reg.example.com/public/postgresql:11. -/
theorem C1_target_name (config : Config) (r : String) :
    (∃ seg, (Split r).getLast? = some seg ∧ '/' ∉ seg.data ∧
      targetImage config r
        = config.Harbor.Domain ++ "/" ++ config.Harbor.Project ++ "/" ++ seg) ∧
    (∀ u pw S,
      targetImage ⟨⟨"reg.example.com", u, pw, "public"⟩, S⟩ "postgresql:11"
        = "reg.example.com/public/postgresql:11" ∧
      targetImage ⟨⟨"reg.example.com", u, pw, "public"⟩, S⟩ "bitnami/postgresql:11"
        = "reg.example.com/public/postgresql:11") := by
  refine ⟨⟨(Split r).getLast (Split_ne_nil r), List.getLast?_eq_getLast _ _, ?_, ?_⟩, ?_⟩
  · exact Split_sep_free r _ (List.getLast_mem (Split_ne_nil r))
  · unfold targetImage
    simp only
    rw [imageParts_last]
  · intro u pw S
    have h1 : (imageParts "postgresql:11").getD ((imageParts "postgresql:11").length - 1) ""
        = "postgresql:11" := by decide
    have h2 : (imageParts "bitnami/postgresql:11").getD
        ((imageParts "bitnami/postgresql:11").length - 1) "" = "postgresql:11" := by decide
    have h3 : "reg.example.com" ++ "/" ++ "public" ++ "/" ++ "postgresql:11"
        = "reg.example.com/public/postgresql:11" := by decide
    simp only [targetImage, h1, h2, h3, and_self]

/-- C5: the `push` command never invokes a pull, whatever docker answers; when every
invocation succeeds its call sequence is tag(r -> target), login(domain, user, password),
push(target), rmi(target) and it ends in success.  For nginx, reg.example.com and public
the sequence is tag(nginx -> reg.example.com/public/nginx), login(reg.example.com),
push(reg.example.com/public/nginx), rmi(reg.example.com/public/nginx). -/
theorem C5_push_sequence (config : Config) (D : Docker) (r : String) :
    (∀ c ∈ calls (pushCmd config D r).trace, ∀ n, c ≠ Call.pull n) ∧
    ((∀ h c, (D h c).err = none) →
      calls (pushCmd config D r).trace
        = [.tag r (targetImage config r),
           .login config.Harbor.Domain config.Harbor.Username config.Harbor.Password,
           .push (targetImage config r), .rmi (targetImage config r)] ∧
      (pushCmd config D r).exit = .success) ∧
    (∀ u pw S, (∀ h c, (D h c).err = none) →
      calls (pushCmd ⟨⟨"reg.example.com", u, pw, "public"⟩, S⟩ D "nginx").trace
        = [.tag "nginx" "reg.example.com/public/nginx", .login "reg.example.com" u pw,
           .push "reg.example.com/public/nginx", .rmi "reg.example.com/public/nginx"]) := by
  have hseq : ∀ (cfg : Config) (img : String), (∀ h c, (D h c).err = none) →
      calls (pushCmd cfg D img).trace
        = [.tag img (targetImage cfg img),
           .login cfg.Harbor.Domain cfg.Harbor.Username cfg.Harbor.Password,
           .push (targetImage cfg img), .rmi (targetImage cfg img)] ∧
      (pushCmd cfg D img).exit = .success := by
    intro cfg img hok
    simp [pushCmd, pushToHarbor, Execute, CleanImage, calls, hok]
  refine ⟨?_, hseq config r, ?_⟩
  · intro c hc n
    simp only [pushCmd, pushToHarbor, Execute, CleanImage] at hc
    split at hc
    · simp [calls] at hc; simp [hc]
    · split at hc
      · simp [calls] at hc; rcases hc with hc | hc <;> simp [hc]
      · split at hc
        · simp [calls] at hc; rcases hc with hc | hc | hc <;> simp [hc]
        · split at hc <;>
          · simp [calls] at hc; rcases hc with hc | hc | hc | hc <;> simp [hc]
  · intro u pw S hok
    have ht : targetImage ⟨⟨"reg.example.com", u, pw, "public"⟩, S⟩ "nginx"
        = "reg.example.com/public/nginx" := by
      have h1 : (imageParts "nginx").getD ((imageParts "nginx").length - 1) "" = "nginx" := by
        decide
      have h3 : "reg.example.com" ++ "/" ++ "public" ++ "/" ++ "nginx"
          = "reg.example.com/public/nginx" := by decide
      simp only [targetImage, h1, h3]
    have := (hseq ⟨⟨"reg.example.com", u, pw, "public"⟩, S⟩ "nginx" hok).1
    rw [ht] at this
    exact this

/-- C5 at a concrete input: the always-succeeding docker, image nginx. -/
theorem C5_push_sequence_witness :
    (∀ h c, (dockerOk h c).err = none) ∧
    calls (pushCmd ⟨⟨"reg.example.com", "admin", "secret", "public"⟩, []⟩ dockerOk "nginx").trace
      = [.tag "nginx" "reg.example.com/public/nginx",
         .login "reg.example.com" "admin" "secret",
         .push "reg.example.com/public/nginx", .rmi "reg.example.com/public/nginx"] :=
  ⟨fun _ _ => rfl,
   (C5_push_sequence ⟨⟨"reg.example.com", "admin", "secret", "public"⟩, []⟩ dockerOk "nginx").2.2
     "admin" "secret" [] (fun _ _ => rfl)⟩

/-- C6: in sync mode with an empty mirror list, when the home-registry pull fails and the
direct pull of the reference fails, the run ends with the fatal "failed from all configured
sources" message and its call sequence is exactly pull(target), pull(r); no tag, login,
push or rmi is invoked. -/
theorem C6_sync_exhaustion_no_push (config : Config) (D : Docker) (r : String)
    (hempty : config.DockerRegistries = [])
    (hhome : (D [] (.pull (targetImage config r))).err ≠ none)
    (hdirect : (D [.pull (targetImage config r)] (.pull r)).err ≠ none) :
    (pullCmd config D r).exit = .fatal pullExhausted ∧
    calls (pullCmd config D r).trace = [.pull (targetImage config r), .pull r] ∧
    (∀ c ∈ calls (pullCmd config D r).trace, c.isFatalStep = false) := by
  obtain ⟨e1, he1⟩ := Option.ne_none_iff_exists'.1 hhome
  obtain ⟨e2, he2⟩ := Option.ne_none_iff_exists'.1 hdirect
  simp [pullCmd, pullFinish, Execute, calls, hempty, he1, he2, Call.isFatalStep]

/-- C6 at a concrete input: the always-failing docker, image redis, no mirror. -/
theorem C6_sync_exhaustion_no_push_witness :
    calls (pullCmd ⟨⟨"home.example.com", "admin", "secret", "public"⟩, []⟩ dockerFail
      "redis").trace = [.pull "home.example.com/public/redis", .pull "redis"] := by
  have h := (C6_sync_exhaustion_no_push ⟨⟨"home.example.com", "admin", "secret", "public"⟩, []⟩
    dockerFail "redis" rfl (by simp [dockerFail]) (by simp [dockerFail])).2.1
  have ht : targetImage ⟨⟨"home.example.com", "admin", "secret", "public"⟩, []⟩ "redis"
      = "home.example.com/public/redis" := by decide
  rw [ht] at h
  exact h

/-- C7: in sync mode, for any mirror list, when the pull of the home target name succeeds
and the tag and the rmi that follow succeed, the call sequence is exactly pull(target),
tag(target -> r), rmi(target) and the run ends in success: no mirror source is pulled and
neither login nor push is invoked. -/
theorem C7_sync_home_first (config : Config) (D : Docker) (r : String)
    (hpull : (D [] (.pull (targetImage config r))).err = none)
    (htag : (D [.pull (targetImage config r)] (.tag (targetImage config r) r)).err = none)
    (hrmi : (D [.pull (targetImage config r), .tag (targetImage config r) r]
      (.rmi (targetImage config r))).err = none) :
    calls (pullCmd config D r).trace
      = [.pull (targetImage config r), .tag (targetImage config r) r,
         .rmi (targetImage config r)] ∧
    (pullCmd config D r).exit = .success := by
  simp [pullCmd, pullFinish, Execute, CleanImage, calls, hpull, htag, hrmi]

/-- C7 at a concrete input: the always-succeeding docker, image redis, two mirrors. -/
theorem C7_sync_home_first_witness :
    calls (pullCmd ⟨⟨"home.example.com", "admin", "secret", "public"⟩,
        ["m1.example.com", "m2.example.com"]⟩ dockerOk "redis").trace
      = [.pull "home.example.com/public/redis", .tag "home.example.com/public/redis" "redis",
         .rmi "home.example.com/public/redis"] ∧
    (pullCmd ⟨⟨"home.example.com", "admin", "secret", "public"⟩,
        ["m1.example.com", "m2.example.com"]⟩ dockerOk "redis").exit = .success := by
  have h := C7_sync_home_first ⟨⟨"home.example.com", "admin", "secret", "public"⟩,
    ["m1.example.com", "m2.example.com"]⟩ dockerOk "redis" rfl rfl rfl
  have ht : targetImage ⟨⟨"home.example.com", "admin", "secret", "public"⟩,
      ["m1.example.com", "m2.example.com"]⟩ "redis" = "home.example.com/public/redis" := by
    decide
  rw [ht] at h
  exact h

/-- C2: sync mode tries the mirror sources in list order and stops at the first success.
When the home-registry pull fails, the pulls of S[i]/r fail for all i < k, the pull of
S[k]/r succeeds, S[k] is not the home domain, and every tag, login, push and rmi succeeds,
the call sequence is exactly pull(target), pull(S[0]/r), ..., pull(S[k]/r),
tag(S[k]/r -> r), rmi(S[k]/r), tag(r -> target), login(domain, user, password),
push(target), rmi(target), and the run ends in success; no source after S[k] is tried. -/
theorem C2_sync_mirror_order (config : Config) (D : Docker) (r : String) (k : Nat)
    (hk : k < config.DockerRegistries.length)
    (hhome : (D [] (.pull (targetImage config r))).err ≠ none)
    (hfail : ∀ i (hi : i < k),
      (D (.pull (targetImage config r) :: mirrorPulls (config.DockerRegistries.take i) r)
        (.pull (registryImage (config.DockerRegistries.get ⟨i, hi.trans hk⟩) r))).err ≠ none)
    (hsucc :
      (D (.pull (targetImage config r) :: mirrorPulls (config.DockerRegistries.take k) r)
        (.pull (registryImage (config.DockerRegistries.get ⟨k, hk⟩) r))).err = none)
    (hne : config.DockerRegistries.get ⟨k, hk⟩ ≠ config.Harbor.Domain)
    (hsteps : ∀ h c, c.isFatalStep = true → (D h c).err = none) :
    calls (pullCmd config D r).trace
      = .pull (targetImage config r) :: mirrorPulls (config.DockerRegistries.take (k + 1)) r
        ++ [.tag (registryImage (config.DockerRegistries.get ⟨k, hk⟩) r) r,
            .rmi (registryImage (config.DockerRegistries.get ⟨k, hk⟩) r),
            .tag r (targetImage config r),
            .login config.Harbor.Domain config.Harbor.Username config.Harbor.Password,
            .push (targetImage config r), .rmi (targetImage config r)] ∧
    (pullCmd config D r).exit = .success := by
  obtain ⟨e0, he0⟩ := Option.ne_none_iff_exists'.1 hhome
  have hlen : config.DockerRegistries.length ≠ 0 := by omega
  have hsplit : config.DockerRegistries
      = config.DockerRegistries.take k
        ++ config.DockerRegistries.get ⟨k, hk⟩ :: config.DockerRegistries.drop (k + 1) := by
    rw [List.get_eq_getElem, List.getElem_cons_drop, List.take_append_drop]
  have htake : config.DockerRegistries.take (k + 1)
      = config.DockerRegistries.take k ++ [config.DockerRegistries.get ⟨k, hk⟩] := by
    rw [List.get_eq_getElem, List.take_succ, List.getElem?_eq_getElem hk]; rfl
  generalize hs0 : (PullState.mk (Execute D [] (.pull (targetImage config r))).2 none "" r)
    = s0
  have hs0t : calls s0.trace = [.pull (targetImage config r)] := by
    rw [← hs0]; simp [Execute, calls]
  have hs0i : s0.sourceImage = r := by rw [← hs0]
  obtain ⟨t1, pe, ht1, hloop1⟩ := pullLoop_failed_sources D r
    (config.DockerRegistries.get ⟨k, hk⟩ :: config.DockerRegistries.drop (k + 1))
    (config.DockerRegistries.take k) s0 (by
      intro i hi
      have hik : i < k := by
        have := List.length_take_le k config.DockerRegistries
        omega
      have := hfail i hik
      rw [hs0t, hs0i]
      simpa [List.take_take, Nat.min_eq_left (Nat.le_of_lt hik), List.getElem_take] using this)
  obtain ⟨t2, ht2, hloop2⟩ := pullLoop_first_success D r
    (config.DockerRegistries.get ⟨k, hk⟩) (config.DockerRegistries.drop (k + 1))
    { s0 with trace := t1, pullErr := pe } (by
      simp only [ht1, hs0t, hs0i]
      simpa using hsucc) hsteps
  have hloop : pullLoop D r config.DockerRegistries s0 = .ok
      { trace := t2, pullErr := none,
        sourceRegistry := config.DockerRegistries.get ⟨k, hk⟩,
        sourceImage := registryImage (config.DockerRegistries.get ⟨k, hk⟩) r } := by
    rw [hsplit.symm] at hloop1
    rw [hloop1, hloop2, hs0i]
  have hpush := pushToHarbor_all_ok config D r (targetImage config r) t2 hsteps
  have he0x : (Execute D [] (.pull (targetImage config r))).1.err = some e0 := he0
  simp only [pullCmd, he0x, hlen, if_false, hs0, hloop, pullFinish, hne, ne_eq,
    not_false_eq_true, if_true]
  refine ⟨?_, hpush.2⟩
  rw [hpush.1, ht2]
  simp only [ht1, hs0t, hs0i, htake, mirrorPulls, List.map_append]
  simp

/-- C2 at the scenario of the specification: mirrors m1.example.com and m2.example.com,
home domain home.example.com, project public, image redis, k = 1. -/
theorem C2_sync_mirror_order_witness :
    calls (pullCmd twoMirrorConfig dockerSecondMirror "redis").trace
      = [.pull "home.example.com/public/redis", .pull "m1.example.com/redis",
         .pull "m2.example.com/redis", .tag "m2.example.com/redis" "redis",
         .rmi "m2.example.com/redis", .tag "redis" "home.example.com/public/redis",
         .login "home.example.com" "admin" "secret", .push "home.example.com/public/redis",
         .rmi "home.example.com/public/redis"] ∧
    (pullCmd twoMirrorConfig dockerSecondMirror "redis").exit = .success := by
  have h := C2_sync_mirror_order twoMirrorConfig dockerSecondMirror "redis" 1 (by decide)
    (by decide)
    (by
      intro i hi
      obtain rfl : i = 0 := by omega
      show (dockerSecondMirror _ (Call.pull (registryImage "m1.example.com" "redis"))).err
        ≠ none
      have hr : registryImage "m1.example.com" "redis" = "m1.example.com/redis" := by decide
      simp [dockerSecondMirror, hr])
    (by decide) (by decide)
    (by
      intro h c hc
      cases c <;> simp [Call.isFatalStep, dockerSecondMirror] at hc ⊢)
  have ht : targetImage twoMirrorConfig "redis" = "home.example.com/public/redis" := by decide
  have hm : mirrorPulls (twoMirrorConfig.DockerRegistries.take (1 + 1)) "redis"
      = [.pull "m1.example.com/redis", .pull "m2.example.com/redis"] := by decide
  have hr : registryImage (twoMirrorConfig.DockerRegistries.get ⟨1, by decide⟩) "redis"
      = "m2.example.com/redis" := by decide
  rw [ht, hm, hr] at h
  exact h

/-- C3, as stated, fails: with the home domain listed as a mirror source, the home pull of
home.example.com/public/redis fails, the mirror pull of home.example.com/redis succeeds,
the recorded source registry equals the home domain, the re-push is skipped and the run
ends in success with neither a successful pull nor a push of the target name. -/
theorem C3_counterexample :
    (pullCmd homeAsMirrorConfig dockerHomeMissing "redis").exit = .success ∧
    calls (pullCmd homeAsMirrorConfig dockerHomeMissing "redis").trace
      = [.pull "home.example.com/public/redis", .pull "home.example.com/redis",
         .tag "home.example.com/redis" "redis", .rmi "home.example.com/redis"] ∧
    ¬ inHome homeAsMirrorConfig "redis"
        (pullCmd homeAsMirrorConfig dockerHomeMissing "redis").trace := by
  decide

/-- C3, amended: when the home domain is not one of the mirror sources and, for an empty
mirror list, is not the empty string, every sync-mode run that ends in success holds a
successful pull of the target name or a successful push of it. -/
theorem C3_sync_in_home (config : Config) (D : Docker) (r : String)
    (hdom : config.Harbor.Domain ∉ config.DockerRegistries)
    (hemp : config.DockerRegistries = [] → config.Harbor.Domain ≠ "")
    (hsucc : (pullCmd config D r).exit = .success) :
    inHome config r (pullCmd config D r).trace := by
  have hpushed : ∀ t, (pushToHarbor config D r (targetImage config r) t).exit = .success →
      inHome config r (pushToHarbor config D r (targetImage config r) t).trace := by
    intro t h
    obtain ⟨e, he, hok, hc⟩ := pushToHarbor_success_pushed config D r _ t h
    exact ⟨e, he, hok, Or.inr hc⟩
  revert hsucc
  simp only [pullCmd]
  split
  · rename_i hpull
    split
    · simp
    · split
      · simp
      · intro _
        simp only [pullFinish, ne_eq, not_true_eq_false, if_false]
        exact ⟨⟨.pull (targetImage config r), _⟩, by simp [CleanImage, Execute], hpull,
          Or.inl rfl⟩
  · split
    · rename_i hlen
      have hne : ¬ ("" = config.Harbor.Domain) :=
        fun h => hemp (List.length_eq_zero.1 hlen) h.symm
      split
      · simp [pullFinish]
      · simp only [pullFinish, ne_eq, hne, not_false_eq_true, if_true]
        exact hpushed _
    · rename_i hlen
      split
      · rename_i run hrun
        intro hex
        exact absurd hex (pullLoop_error_fatal D r _ _ _ hrun)
      · rename_i s1 hloop
        rcases pullLoop_ok_cases D r _ _ _ hloop with h1 | h1 | h1
        · have hne : ¬ (s1.sourceRegistry = config.Harbor.Domain) :=
            fun h => hdom (h ▸ h1.2)
          simp only [pullFinish, h1.1, ne_eq, hne, not_false_eq_true, if_true]
          exact hpushed _
        · exact absurd (congrArg List.length h1.1) hlen
        · obtain ⟨e, he⟩ := Option.ne_none_iff_exists'.1 h1.2
          simp [pullFinish, he]

/-- C3 amended, at the two-mirror scenario: the run succeeds and holds a successful push of
home.example.com/public/redis. -/
theorem C3_sync_in_home_witness :
    inHome twoMirrorConfig "redis" (pullCmd twoMirrorConfig dockerSecondMirror "redis").trace :=
  C3_sync_in_home twoMirrorConfig dockerSecondMirror "redis" (by decide) (by decide)
    (by decide)

/-- C4, as stated, fails: a reference that is its own home target name,
reg.example.com/public/redis with domain reg.example.com and project public, is pulled,
tagged as itself and removed, so a successful run leaves the store without the tag r. -/
theorem C4_counterexample :
    targetImage noMirrorConfig "reg.example.com/public/redis" = "reg.example.com/public/redis" ∧
    (pullCmd noMirrorConfig dockerOk "reg.example.com/public/redis").exit = .success ∧
    calls (pullCmd noMirrorConfig dockerOk "reg.example.com/public/redis").trace
      = [.pull "reg.example.com/public/redis",
         .tag "reg.example.com/public/redis" "reg.example.com/public/redis",
         .rmi "reg.example.com/public/redis"] ∧
    "reg.example.com/public/redis"
      ∉ storeAfter (pullCmd noMirrorConfig dockerOk "reg.example.com/public/redis").trace := by
  decide

/-- C4, amended: for a reference r that is not its own home target name, after a sync-mode
run that ends in success from the empty store, the store holds the tag r and nothing else:
neither the home target name nor any registry-qualified name of r. -/
theorem C4_sync_cleanup (config : Config) (D : Docker) (r : String)
    (hne : r ≠ targetImage config r)
    (hsucc : (pullCmd config D r).exit = .success) :
    storeAfter (pullCmd config D r).trace = [r] ∧
    r ∈ storeAfter (pullCmd config D r).trace ∧
    targetImage config r ∉ storeAfter (pullCmd config D r).trace ∧
    (∀ registry, registryImage registry r ∉ storeAfter (pullCmd config D r).trace) := by
  have key : storeAfter (pullCmd config D r).trace = [r] := by
    have hfin : ∀ s : PullState, s.pullErr = none → storeAfter s.trace = [r] →
        (pullFinish config D r s).exit = .success →
        storeAfter (pullFinish config D r s).trace = [r] := by
      intro s hpe hst
      simp only [pullFinish, hpe]
      split
      · exact pushToHarbor_success_store config D r _ s.trace hne hst
      · intro _; exact hst
    revert hsucc
    simp only [pullCmd]
    split
    · rename_i h1
      split
      · simp
      · rename_i h2
        split
        · simp
        · rename_i h3
          refine hfin _ rfl ?_
          simp only [CleanImage, Execute] at h1 h2 h3 ⊢
          simp only [storeAfter_snoc, applyEvent, h1, h2, h3, storeAfter_nil]
          simp [hne, Ne.symm hne]
    · rename_i e1 h1
      split
      · split
        · simp [pullFinish]
        · rename_i h2
          refine hfin _ rfl ?_
          simp only [Execute] at h1 h2 ⊢
          simp only [storeAfter_snoc, applyEvent, h1, h2, storeAfter_nil]
          simp
      · rename_i hlen
        split
        · rename_i run hrun
          intro hex
          exact absurd hex (pullLoop_error_fatal D r _ _ _ hrun)
        · rename_i s1 hloop
          have hst0 : storeAfter (Execute D [] (.pull (targetImage config r))).2 = [] := by
            simp only [Execute] at h1 ⊢
            simp only [storeAfter_snoc, applyEvent, h1, storeAfter_nil]
          rcases pullLoop_ok_store D r _ _ _ hloop hst0 rfl with h2 | h2 | h2
          · exact hfin s1 h2.1 h2.2
          · exact absurd (congrArg List.length h2.1) hlen
          · obtain ⟨e, he⟩ := Option.ne_none_iff_exists'.1 h2.2
            simp [pullFinish, he]
  rw [key]
  refine ⟨rfl, by simp, ?_, ?_⟩
  · simpa using Ne.symm hne
  · intro registry
    simpa using registryImage_ne registry r

/-- C4 amended, at the two-mirror scenario: after the successful run the store is the
single tag redis. -/
theorem C4_sync_cleanup_witness :
    storeAfter (pullCmd twoMirrorConfig dockerSecondMirror "redis").trace = ["redis"] :=
  (C4_sync_cleanup twoMirrorConfig dockerSecondMirror "redis" (by decide) (by decide)).1

/-- C9 against the code: with mirrors m1.example.com, m2.example.com and a docker that
serves redis on m2.example.com only and cannot tag the image it failed to pull, `pull-local`
stops with the fatal tag error at the first source, whose pull failed, before the list is
exhausted: it calls neither rmi(m1.example.com/redis) nor pull(m2.example.com/redis).  On
the same docker the loop of `pull` goes on to m2.example.com and the run ends in success. -/
theorem C9_pull_local_stops_at_failed_source :
    (calls (pullLocalCmd twoMirrorConfig dockerTagAbsentFails "redis").trace
        = [.pull "m1.example.com/redis", .tag "m1.example.com/redis" "redis"] ∧
      (pullLocalCmd twoMirrorConfig dockerTagAbsentFails "redis").exit
        = .fatal "标记镜像出错: exit status 1\nError response from daemon: No such image" ∧
      Call.rmi "m1.example.com/redis"
        ∉ calls (pullLocalCmd twoMirrorConfig dockerTagAbsentFails "redis").trace ∧
      Call.pull "m2.example.com/redis"
        ∉ calls (pullLocalCmd twoMirrorConfig dockerTagAbsentFails "redis").trace) ∧
    (calls (pullCmd twoMirrorConfig dockerTagAbsentFails "redis").trace
        = [.pull "home.example.com/public/redis", .pull "m1.example.com/redis",
           .pull "m2.example.com/redis", .tag "m2.example.com/redis" "redis",
           .rmi "m2.example.com/redis", .tag "redis" "home.example.com/public/redis",
           .login "home.example.com" "admin" "secret", .push "home.example.com/public/redis",
           .rmi "home.example.com/public/redis"] ∧
      (pullCmd twoMirrorConfig dockerTagAbsentFails "redis").exit = .success) := by
  decide

/-- C8 against the code: `pull-local` of redis with an always-succeeding docker ends in
success without the tag redis in the store.  With no mirror the image is pulled, tagged as
itself and removed, so the store is empty; with mirrors m1.example.com, m2.example.com the
first pull succeeds, nothing is retagged, and the store holds m1.example.com/redis only. -/
theorem C8_pull_local_store_lacks_tag :
    ((pullLocalCmd noMirrorConfig dockerOk "redis").exit = .success ∧
      calls (pullLocalCmd noMirrorConfig dockerOk "redis").trace
        = [.pull "redis", .tag "redis" "redis", .rmi "redis"] ∧
      storeAfter (pullLocalCmd noMirrorConfig dockerOk "redis").trace = []) ∧
    ((pullLocalCmd twoMirrorConfig dockerOk "redis").exit = .success ∧
      calls (pullLocalCmd twoMirrorConfig dockerOk "redis").trace
        = [.pull "m1.example.com/redis"] ∧
      storeAfter (pullLocalCmd twoMirrorConfig dockerOk "redis").trace
        = ["m1.example.com/redis"]) := by
  decide

/-- C10, as stated, fails for rmi: in sync mode the cleanup of the target name fails with
output "Error response from daemon: conflict"; the run stops there with the message
"清理本地镜像出错: exit status 1", which does not hold that output. -/
theorem C10_counterexample :
    (pullCmd noMirrorConfig dockerRmiFails "redis").trace.getLast?
      = some ⟨.rmi "reg.example.com/public/redis",
          ⟨"Error response from daemon: conflict", some "exit status 1"⟩⟩ ∧
    (pullCmd noMirrorConfig dockerRmiFails "redis").exit
      = .fatal "清理本地镜像出错: exit status 1" ∧
    ¬ ("Error response from daemon: conflict".data
        <:+: "清理本地镜像出错: exit status 1".data) := by
  decide

/-- C10, amended: in each of the three commands, for every docker, a tag, login, push or rmi
that fails is the last invocation of the run, and the run ends with the `log.Fatalf` of
that step; for tag, login and push the message holds the output text of the failed
command, for rmi it is the cleanup prefix followed by the error value, without the
output. -/
theorem C10_fatal_step_diagnostics (config : Config) (D : Docker) (r : String) :
    fatalStepStops (pullCmd config D r) ∧ fatalStepStops (pullLocalCmd config D r) ∧
    fatalStepStops (pushCmd config D r) :=
  ⟨fatalStepStops_of_settled _ (pullCmd_settled config D r),
   fatalStepStops_of_settled _ (pullLocalCmd_settled config D r),
   fatalStepStops_of_settled _ (pushToHarbor_settled config D r _ [] clean_nil)⟩

/-- C10 amended, at a concrete input: `push` of redis with the always-failing docker stops
at the failed tag, and the message holds the output of the tag command. -/
theorem C10_fatal_step_diagnostics_witness :
    (pushCmd noMirrorConfig dockerFail "redis").exit
      = .fatal "标记镜像出错: exit status 1\nError response from daemon" ∧
    "Error response from daemon".data
      <:+: "标记镜像出错: exit status 1\nError response from daemon".data := by
  have h := (C10_fatal_step_diagnostics noMirrorConfig dockerFail "redis").2.2 []
    ⟨.tag "redis" "reg.example.com/public/redis",
      ⟨"Error response from daemon", some "exit status 1"⟩⟩ [] "exit status 1"
    (by decide) rfl rfl
  have hd : diagnostic ⟨.tag "redis" "reg.example.com/public/redis",
      ⟨"Error response from daemon", some "exit status 1"⟩⟩ "exit status 1"
      = "标记镜像出错: exit status 1\nError response from daemon" := by decide
  rw [hd] at h
  exact ⟨h.2.1, h.2.2.1 (by simp)⟩

end DockerMirror
